import Mathlib

-- Verification of the agent orchestration loop of vibeAI
-- (src/src/inngest/functions.ts, `codeAgentFunction`).
--
-- Conventions of the embedding:
--  * JS string-keyed objects become insertion-ordered association lists
--    (`FileMap`), with `jsLookup` for property access and `objSet` for
--    `obj[k] = v` (overwrite in place, else append).
--  * `string | undefined` fields become `Option String`; JS truthiness of
--    such a field is `truthy`.
--  * Sandbox I/O is an oracle: each call site takes an `Except` valued
--    function describing whether the external call returns or throws.

/-- Completion marker literal checked by the `onResponse` lifecycle hook. -/
def marker : String := "<task_summary>"

def containsAux (pat : List Char) : List Char → Bool
  | [] => pat.isEmpty
  | c :: rest => pat.isPrefixOf (c :: rest) || containsAux pat rest

/-- JS `s.includes(pat)`: substring containment. -/
def strContains (s pat : String) : Bool := containsAux pat.toList s.toList

abbrev FileMap := List (String × String)

/-- JS property lookup on a string-keyed object. -/
def jsLookup (m : FileMap) (k : String) : Option String :=
  match m with
  | [] => none
  | (k₁, v) :: rest => if k₁ = k then some v else jsLookup rest k

/-- Entry-wise update used by assignment: replace the slot keyed `k`. -/
def setEntry (k v : String) (q : String × String) : String × String :=
  if q.1 = k then (k, v) else q

/-- JS assignment `obj[k] = v`: overwrite the existing slot, else append. -/
def objSet (m : FileMap) (k v : String) : FileMap :=
  if (jsLookup m k).isSome then m.map (setEntry k v)
  else m ++ [(k, v)]

def optOr (a b : Option String) : Option String :=
  match a with
  | some v => some v
  | none => b

/-- Value of the last entry of `batch` whose path is `p`, if any. -/
def lastVal (batch : FileMap) (p : String) : Option String :=
  match batch with
  | [] => none
  | (k, v) :: rest =>
    match lastVal rest p with
    | some c => some c
    | none => if k = p then some v else none

/-- Sequentially assign every entry of `batch` into `m` (last write wins). -/
def batchApply (m : FileMap) (batch : FileMap) : FileMap :=
  batch.foldl (fun acc q => objSet acc q.1 q.2) m

/-- JS truthiness of a `string | undefined` value. -/
def truthy : Option String → Bool
  | none => false
  | some s => if s = "" then false else true

-- ## createOrUpdateFiles tool handler (functions.ts lines 104-137)

/-- Return value of the createOrUpdateFiles step: the updated object on
success, or the `\x7b error: ... \x7d` object built in the catch block. -/
inductive ToolResult where
  | ok (files : FileMap)
  | error (msg : String)
deriving DecidableEq

/-- Loop body of the handler: for each file, `sandbox.files.write` (outcome
given by the oracle `wr`, indexed by call position), then
`updatedFiles[file.path] = file.content`.  Stops at the first throw,
returning the object as mutated so far together with the thrown message. -/
def writeAll (wr : Nat → Except String Unit) :
    Nat → FileMap → FileMap → FileMap × Option String
  | _, acc, [] => (acc, none)
  | i, acc, (p, c) :: rest =>
    match wr i with
    | .ok _ => writeAll wr (i + 1) (objSet acc p c) rest
    | .error e => (acc, some e)

/-- Outcome of one createOrUpdateFiles call: the value of
`AgentState.files` after the call, and the handler's returned ToolResult. -/
structure COUFOut where
  newState : Option FileMap
  result : ToolResult
deriving DecidableEq

/-- createOrUpdateFiles handler.  `const updatedFiles =
network?.state?.data?.files || \x7b\x7d` ALIASES the live state object whenever
`files` is defined (any defined object, even an empty one, is truthy), so
the in-loop assignments mutate `AgentState.files` directly; the final
guarded merge (`typeof newFiles === "object" && !newFiles.error`) then
assigns the same object back.  Only when `files` was undefined does the
loop build a fresh object, and then the guard decides whether the state is
updated at all — in particular a result object owning a truthy `error`
property is mistaken for a failure and not merged. -/
def createOrUpdateFiles (stFiles : Option FileMap) (batch : FileMap)
    (wr : Nat → Except String Unit) : COUFOut :=
  match stFiles with
  | some m =>
    match writeAll wr 0 m batch with
    | (final, none) => ⟨some final, .ok final⟩
    | (final, some e) => ⟨some final, .error ("Error: " ++ e)⟩
  | none =>
    match writeAll wr 0 [] batch with
    | (final, none) =>
      if truthy (jsLookup final "error") then ⟨none, .ok final⟩
      else ⟨some final, .ok final⟩
    | (_, some e) => ⟨none, .error ("Error: " ++ e)⟩

-- ## readFiles tool handler (functions.ts lines 145-167)

/-- Content recorded for one path: the real content on success, or the
formatted per-file error string from the inner catch block. -/
def valOfRead (rd : String → Except String String) (p : String) : String :=
  match rd p with
  | .ok c => c
  | .error e => "Error reading file: " ++ e

/-- Return value of the readFiles step: the contents object, or the
aggregate error object from the outer catch block. -/
inductive ReadResult where
  | contents (m : FileMap)
  | error (msg : String)
deriving DecidableEq

/-- readFiles handler: connect to the sandbox (`conn` oracle), then read
each path under its own try/catch, recording content or a per-file error
string and continuing; never throws past the step boundary. -/
def readFiles (conn : Except String Unit) (rd : String → Except String String)
    (paths : List String) : ReadResult :=
  match conn with
  | .error e => .error ("Failed to read files: " ++ e)
  | .ok _ => .contents (paths.foldl (fun m p => objSet m p (valOfRead rd p)) [])

-- ## terminal tool handler (functions.ts lines 70-91)

/-- Observable outcome of `sandbox.commands.run`: either it returns with a
`result.stdout` while the onStdout callback accumulated `bufStdout`, or it
throws `e` with the buffers accumulated so far. -/
inductive CmdOutcome where
  | ok (resultStdout : String) (bufStdout : String)
  | err (e : String) (bufStdout : String) (bufStderr : String)
deriving DecidableEq

/-- JS `a || b` on strings: empty string is falsy. -/
def jsOrStr (a b : String) : String := if a = "" then b else a

/-- terminal handler: `result.stdout || buffers.stdout` on success, the
formatted `Command failed` string from the catch block on failure.  Total:
nothing escapes the handler. -/
def terminal : CmdOutcome → String
  | .ok r buf => jsOrStr r buf
  | .err e so se =>
    "Command failed: " ++ e ++ "\nstdout: " ++ so ++ "\nstderr: " ++ se

-- ## onResponse lifecycle hook (functions.ts lines 189-201)

/-- onResponse: if the last assistant text message is truthy and includes
the marker, set `AgentState.summary` to the full message text; otherwise
leave it unchanged. -/
def onResponse (msg : Option String) (summary : Option String) : Option String :=
  match msg with
  | none => summary
  | some t =>
    if t = "" then summary
    else if strContains t marker then some t else summary

-- ## Network router (functions.ts lines 208-215)

inductive RouterDecision where
  | stop
  | runAgent
deriving DecidableEq

/-- Router: `if (summary) return; return codeAgent;` — stop as soon as the
summary is truthy, otherwise schedule the single coding agent again. -/
def router (summary : Option String) : RouterDecision :=
  if truthy summary then .stop else .runAgent

-- ## Network loop

/-- Shared mutable state of one network run (`AgentState`): both fields
start undefined. -/
structure NetworkState where
  summary : Option String
  files : Option FileMap

/-- Externally visible effect of one Agent Step: how the tool calls it
issues transform `files`, and the last assistant text message (if any)
handed to `onResponse`. -/
structure StepEff where
  filesEff : Option FileMap → Option FileMap
  msg : Option String

/-- Run one Agent Step: its tool calls update `files`, then the
`onResponse` hook inspects the final message. -/
def applyStep (e : StepEff) (st : NetworkState) : NetworkState :=
  { summary := onResponse e.msg st.summary, files := e.filesEff st.files }

structure LoopState where
  iter : Nat
  st : NetworkState
  done : Bool

/-- Modelled from the spec: the loop harness of `createNetwork` lives in
the external agent-kit library, not under src/; spec section 4.2 gives its
transition: if the router signals stop go to DONE, else if the iteration
count reached `maxIter` go to DONE, else run the selected agent once and
increment the iteration count.  `done` latches. -/
def loopStep (maxIter : Nat) (eff : Nat → StepEff) (l : LoopState) : LoopState :=
  if l.done then l
  else
    match router l.st.summary with
    | .stop => { l with done := true }
    | .runAgent =>
      if maxIter ≤ l.iter then { l with done := true }
      else { iter := l.iter + 1, st := applyStep (eff l.iter) l.st, done := false }

/-- Initial loop state: iteration 0, `AgentState = \x7b\x7d`. -/
def initLoop : LoopState := ⟨0, ⟨none, none⟩, false⟩

/-- State of the loop after `n` transition steps. -/
def loopAt (maxIter : Nat) (eff : Nat → StepEff) : Nat → LoopState
  | 0 => initLoop
  | n + 1 => loopStep maxIter eff (loopAt maxIter eff n)

/-- Terminal state of `network.run`: after `maxIter + 1` transitions the
loop has necessarily latched `done`. -/
def runNetwork (maxIter : Nat) (eff : Nat → StepEff) : LoopState :=
  loopAt maxIter eff (maxIter + 1)

-- ## Result finalizer (functions.ts lines 222-271)

/-- Error classification: `!result.state.data.summary ||
Object.keys(result.state.data.files || \x7b\x7d).length === 0`. -/
def isError (summary : Option String) (files : Option FileMap) : Bool :=
  !(truthy summary) || ((files.getD []).length == 0)

/-- get-sandbox-url step: `https://` prefix on the resolved host, or null
when `getSandbox`/`getHost` throws (caught in the step). -/
def getSandboxUrl (host : Except String String) : Option String :=
  match host with
  | .ok h => some ("https://" ++ h)
  | .error _ => none

/-- Fixed failure message persisted on the error path. -/
def failureText : String := "Something went wrong . Please try again"

/-- JS `a || b` where `a : string | null`. -/
def jsOrStrOpt (a : Option String) (b : String) : String :=
  match a with
  | none => b
  | some s => jsOrStr s b

/-- Message row persisted by the save-result step: either the fixed ERROR
message (no fragment, hence no files), or the RESULT message with its
fragment (sandboxUrl, title, files). -/
inductive SavedMessage where
  | errorMsg (content : String)
  | resultMsg (content : String) (sandboxUrl : String) (title : String)
      (files : FileMap)
deriving DecidableEq

/-- Files attached to a persisted message (the error row has no fragment). -/
def SavedMessage.filesOf : SavedMessage → FileMap
  | .errorMsg _ => []
  | .resultMsg _ _ _ fs => fs

/-- save-result step (functions.ts lines 237-263). -/
def saveResult (summary : Option String) (files : Option FileMap)
    (sandboxUrl : Option String) : SavedMessage :=
  if isError summary files then .errorMsg failureText
  else .resultMsg (summary.getD "") (jsOrStrOpt sandboxUrl "URL unavailable")
    "Fragment" (files.getD [])

/-- Value returned by `codeAgentFunction` (functions.ts lines 265-271). -/
structure FnReturn where
  url : String
  title : String
  files : Option FileMap
  summary : Option String

def codeAgentReturn (summary : Option String) (files : Option FileMap)
    (sandboxUrl : Option String) : FnReturn :=
  ⟨jsOrStrOpt sandboxUrl "URL unavailable", "fragment", files, summary⟩

-- ## Object lemmas

theorem optOr_none (a : Option String) : optOr a none = a := by
  cases a <;> rfl

theorem jsLookup_append (m l : FileMap) (k : String) :
    jsLookup (m ++ l) k = optOr (jsLookup m k) (jsLookup l k) := by
  induction m with
  | nil => rfl
  | cons q rest ih =>
    obtain ⟨k₁, v⟩ := q
    by_cases h : k₁ = k <;> simp [jsLookup, h, ih, optOr]

theorem setEntry_eq (k v k₁ v₁ : String) (h : k₁ = k) :
    setEntry k v (k₁, v₁) = (k, v) := by
  simp [setEntry, h]

theorem setEntry_ne (k v k₁ v₁ : String) (h : ¬k₁ = k) :
    setEntry k v (k₁, v₁) = (k₁, v₁) := by
  simp [setEntry, h]

theorem jsLookup_map_set_self (m : FileMap) (k v : String)
    (h : (jsLookup m k).isSome = true) :
    jsLookup (m.map (setEntry k v)) k = some v := by
  induction m with
  | nil => simp [jsLookup] at h
  | cons q rest ih =>
    obtain ⟨k₁, v₁⟩ := q
    by_cases hk : k₁ = k
    · rw [List.map_cons, setEntry_eq k v k₁ v₁ hk]
      simp [jsLookup]
    · rw [List.map_cons, setEntry_ne k v k₁ v₁ hk]
      simp only [jsLookup, if_neg hk] at h ⊢
      exact ih h

theorem jsLookup_map_set_ne (m : FileMap) (k v p : String) (h : p ≠ k) :
    jsLookup (m.map (setEntry k v)) p = jsLookup m p := by
  induction m with
  | nil => rfl
  | cons q rest ih =>
    obtain ⟨k₁, v₁⟩ := q
    by_cases hk : k₁ = k
    · rw [List.map_cons, setEntry_eq k v k₁ v₁ hk]
      simp [jsLookup, Ne.symm h, hk, ih]
    · rw [List.map_cons, setEntry_ne k v k₁ v₁ hk]
      by_cases hp : k₁ = p <;> simp [jsLookup, hp, ih]

theorem jsLookup_objSet_self (m : FileMap) (k v : String) :
    jsLookup (objSet m k v) k = some v := by
  cases hx : jsLookup m k with
  | some c =>
    have hs : (jsLookup m k).isSome = true := by rw [hx]; rfl
    simp [objSet, hx, jsLookup_map_set_self m k v hs]
  | none =>
    simp [objSet, hx, jsLookup_append, jsLookup, optOr]

theorem jsLookup_objSet_ne (m : FileMap) (k v p : String) (h : p ≠ k) :
    jsLookup (objSet m k v) p = jsLookup m p := by
  by_cases hs : (jsLookup m k).isSome = true
  · simp [objSet, hs, jsLookup_map_set_ne m k v p h]
  · simp [objSet, hs, jsLookup_append, jsLookup, Ne.symm h, optOr_none]

theorem batchApply_cons (m : FileMap) (q : String × String) (l : FileMap) :
    batchApply m (q :: l) = batchApply (objSet m q.1 q.2) l := rfl

theorem jsLookup_batchApply (batch : FileMap) (m : FileMap) (p : String) :
    jsLookup (batchApply m batch) p = optOr (lastVal batch p) (jsLookup m p) := by
  induction batch generalizing m with
  | nil => simp [batchApply, lastVal, optOr]
  | cons q rest ih =>
    obtain ⟨k, v⟩ := q
    rw [batchApply_cons, ih]
    cases hl : lastVal rest p with
    | some c => simp [lastVal, hl, optOr]
    | none =>
      by_cases hk : k = p
      · subst hk
        simp [lastVal, hl, optOr, jsLookup_objSet_self]
      · simp [lastVal, hl, optOr, hk, jsLookup_objSet_ne m k v p (Ne.symm hk)]

theorem writeAll_ok (wr : Nat → Except String Unit) (batch : FileMap) :
    ∀ (i : Nat) (acc : FileMap),
      (∀ j, j < batch.length → wr (i + j) = .ok ()) →
      writeAll wr i acc batch = (batchApply acc batch, none) := by
  induction batch with
  | nil => intro i acc _; rfl
  | cons q rest ih =>
    intro i acc h
    obtain ⟨p, c⟩ := q
    have h0 : wr i = .ok () := by simpa using h 0 (by simp)
    have h1 : ∀ j, j < rest.length → wr (i + 1 + j) = .ok () := by
      intro j hj
      have h2 := h (j + 1) (by simpa using Nat.succ_lt_succ hj)
      rwa [show i + (j + 1) = i + 1 + j by omega] at h2
    simp [writeAll, h0, batchApply_cons, ih (i + 1) (objSet acc p c) h1]

-- ## Loop lemmas

theorem onResponse_cases (msg s : Option String) :
    onResponse msg s = s ∨
      ∃ t, msg = some t ∧ strContains t marker = true ∧ onResponse msg s = some t := by
  cases msg with
  | none => exact Or.inl rfl
  | some t =>
    by_cases h1 : t = ""
    · exact Or.inl (by simp [onResponse, h1])
    · by_cases h2 : strContains t marker = true
      · exact Or.inr ⟨t, rfl, h2, by simp [onResponse, h1, h2]⟩
      · exact Or.inl (by simp [onResponse, h1, h2])

theorem strContains_marker_ne_empty (t : String) (h : strContains t marker = true) :
    t ≠ "" := by
  intro he
  subst he
  exact absurd h (by decide)

theorem truthy_some_of_marker (t : String) (h : strContains t marker = true) :
    truthy (some t) = true := by
  simp [truthy, strContains_marker_ne_empty t h]

theorem onResponse_none (msg : Option String)
    (h : ∀ t, msg = some t → strContains t marker = false) :
    onResponse msg none = none := by
  cases msg with
  | none => rfl
  | some t =>
    by_cases h1 : t = ""
    · simp [onResponse, h1]
    · simp [onResponse, h1, h t rfl]

theorem loopStep_summary_eq (maxIter : Nat) (eff : Nat → StepEff) (l : LoopState) :
    (loopStep maxIter eff l).st.summary = l.st.summary ∨
      (loopStep maxIter eff l).st.summary
        = onResponse (eff l.iter).msg l.st.summary := by
  unfold loopStep
  by_cases hd : l.done
  · left; simp [hd]
  · cases hr : router l.st.summary with
    | stop => left; simp [hd, hr]
    | runAgent =>
      by_cases hc : maxIter ≤ l.iter
      · left; simp [hd, hr, hc]
      · right; simp [hd, hr, hc, applyStep]

theorem loop_summary_inv (maxIter : Nat) (eff : Nat → StepEff) (n : Nat) :
    (loopAt maxIter eff n).st.summary = none ∨
      ∃ t, (loopAt maxIter eff n).st.summary = some t ∧ strContains t marker = true := by
  induction n with
  | zero => exact Or.inl rfl
  | succ n ih =>
    have hstep : loopAt maxIter eff (n + 1)
        = loopStep maxIter eff (loopAt maxIter eff n) := rfl
    rw [hstep]
    rcases loopStep_summary_eq maxIter eff (loopAt maxIter eff n) with h | h
    · rw [h]; exact ih
    · rw [h]
      rcases onResponse_cases (eff (loopAt maxIter eff n).iter).msg
          (loopAt maxIter eff n).st.summary with h2 | ⟨t, _, hm, h2⟩
      · rw [h2]; exact ih
      · exact Or.inr ⟨t, h2, hm⟩

theorem loopStep_frozen (maxIter : Nat) (eff : Nat → StepEff) (l : LoopState)
    (s : String) (hs : l.st.summary = some s) (hm : strContains s marker = true) :
    (loopStep maxIter eff l).st = l.st ∧ (loopStep maxIter eff l).iter = l.iter := by
  have ht : router l.st.summary = .stop := by
    simp [router, hs, truthy_some_of_marker s hm]
  unfold loopStep
  by_cases hd : l.done
  · simp [hd]
  · simp [hd, ht]

theorem loopStep_iter (maxIter : Nat) (eff : Nat → StepEff) (l : LoopState) :
    (loopStep maxIter eff l).iter = l.iter ∨
      ((loopStep maxIter eff l).iter = l.iter + 1 ∧ l.iter < maxIter ∧ l.done = false) := by
  unfold loopStep
  by_cases hd : l.done
  · left; simp [hd]
  · cases hr : router l.st.summary with
    | stop => left; simp [hd, hr]
    | runAgent =>
      by_cases hc : maxIter ≤ l.iter
      · left; simp [hd, hr, hc]
      · right
        exact ⟨by simp [hd, hr, hc], by omega, by simpa using hd⟩

theorem loopAt_iter_le (maxIter : Nat) (eff : Nat → StepEff) (n : Nat) :
    (loopAt maxIter eff n).iter ≤ maxIter := by
  induction n with
  | zero => exact Nat.zero_le maxIter
  | succ n ih =>
    show (loopStep maxIter eff (loopAt maxIter eff n)).iter ≤ maxIter
    rcases loopStep_iter maxIter eff (loopAt maxIter eff n) with h | ⟨h, hlt, _⟩
    · rw [h]; exact ih
    · rw [h]; omega

theorem loopStep_not_done (maxIter : Nat) (eff : Nat → StepEff) (l : LoopState)
    (h : (loopStep maxIter eff l).done = false) :
    l.done = false ∧ (loopStep maxIter eff l).iter = l.iter + 1 := by
  unfold loopStep at h ⊢
  by_cases hd : l.done
  · simp [hd] at h
  · cases hr : router l.st.summary with
    | stop => simp [hd, hr] at h
    | runAgent =>
      by_cases hc : maxIter ≤ l.iter
      · simp [hd, hr, hc] at h
      · simp [hd, hr, hc]

theorem loopAt_iter_of_not_done (maxIter : Nat) (eff : Nat → StepEff) :
    ∀ n, (loopAt maxIter eff n).done = false → (loopAt maxIter eff n).iter = n := by
  intro n
  induction n with
  | zero => intro _; rfl
  | succ n ih =>
    intro h
    have h2 := loopStep_not_done maxIter eff (loopAt maxIter eff n) h
    show (loopStep maxIter eff (loopAt maxIter eff n)).iter = n + 1
    rw [h2.2, ih h2.1]

theorem runNetwork_done (maxIter : Nat) (eff : Nat → StepEff) :
    (runNetwork maxIter eff).done = true := by
  cases h : (runNetwork maxIter eff).done with
  | true => rfl
  | false =>
    have h1 := loopAt_iter_of_not_done maxIter eff (maxIter + 1) h
    have h2 := loopAt_iter_le maxIter eff (maxIter + 1)
    rw [h1] at h2
    omega

theorem loopAt_summary_none (maxIter : Nat) (eff : Nat → StepEff)
    (hm : ∀ i t, (eff i).msg = some t → strContains t marker = false) :
    ∀ n, (loopAt maxIter eff n).st.summary = none := by
  intro n
  induction n with
  | zero => rfl
  | succ n ih =>
    show (loopStep maxIter eff (loopAt maxIter eff n)).st.summary = none
    rcases loopStep_summary_eq maxIter eff (loopAt maxIter eff n) with h | h
    · rw [h]; exact ih
    · rw [h, ih]
      exact onResponse_none _ (hm (loopAt maxIter eff n).iter)

-- ## Claim theorems

def wrFailSecond : Nat → Except String Unit :=
  fun i => if i = 0 then .ok () else .error "boom"

/-- Claim C1: the claim says that when some write of a batch throws, the
handler returns an error-bearing ToolResult and `AgentState.files` is
unchanged.  The error-bearing result part holds, but because `updatedFiles`
aliases the live state object, the writes applied before the failure are
already visible in `AgentState.files`: at state `\x7b a: "old" \x7d` with batch
`[(a,"1"), (b,"2")]` whose second write throws, the state afterwards is
`\x7b a: "1" \x7d`, not the prior `\x7b a: "old" \x7d` — contradicting the
handler's own guarded merge, whose whole point is to withhold state updates
on error. -/
theorem couf_partial_failure_mutates_state :
    createOrUpdateFiles (some [("a", "old")]) [("a", "1"), ("b", "2")] wrFailSecond
        = ⟨some [("a", "1")], .error "Error: boom"⟩ ∧
      some [("a", "1")] ≠ some [("a", "old")] :=
  ⟨rfl, by decide⟩

/-- Claim C2: the finalizer classifies a run as error whenever the summary
is unset or the files map is empty, and then persists the fixed failure
message with no attached files; in particular a run whose agent never
emits the marker terminates at the cap with no summary, and is saved as
the fixed error message regardless of the files content. -/
theorem finalizer_error_classification :
    (∀ (s : Option String) (f : Option FileMap) (u : Option String),
        s = none ∨ (f.getD []).length = 0 →
        saveResult s f u = .errorMsg failureText ∧
          (saveResult s f u).filesOf = []) ∧
    (∀ (eff : Nat → StepEff) (u : Option String),
        (∀ i t, (eff i).msg = some t → strContains t marker = false) →
        (runNetwork 15 eff).done = true ∧
          (runNetwork 15 eff).st.summary = none ∧
          saveResult (runNetwork 15 eff).st.summary (runNetwork 15 eff).st.files u
            = .errorMsg failureText) := by
  constructor
  · intro s f u h
    have he : isError s f = true := by
      rcases h with h | h
      · simp [isError, h, truthy]
      · simp [isError, h]
    simp [saveResult, he, SavedMessage.filesOf]
  · intro eff u hm
    have hs := loopAt_summary_none 15 eff hm (15 + 1)
    refine ⟨runNetwork_done 15 eff, hs, ?_⟩
    have he : isError (runNetwork 15 eff).st.summary (runNetwork 15 eff).st.files
        = true := by
      have hs2 : (runNetwork 15 eff).st.summary = none := hs
      simp [isError, hs2, truthy]
    simp [saveResult, he]

def constEff : Nat → StepEff := fun _ => ⟨id, none⟩

theorem finalizer_error_classification_witness :
    saveResult none (some [("a", "1")]) (some "https://h") = .errorMsg failureText ∧
      saveResult (runNetwork 15 constEff).st.summary (runNetwork 15 constEff).st.files
          none = .errorMsg failureText :=
  ⟨(finalizer_error_classification.1 none (some [("a", "1")]) (some "https://h")
      (Or.inl rfl)).1,
   (finalizer_error_classification.2 constEff none (fun _ _ h => nomatch h)).2.2⟩

def closingMarker : String := "</task_summary>"

/-- Claim C3 counterexample: a message containing the opening literal but
NOT the closing form of the delimiter pair still sets the summary, so the
claim's "if the message does not contain the marker [pair], summary is
left unchanged" is false on the code: `onResponse` tests only substring
containment of the opening literal. -/
theorem onResponse_pair_not_required_cex :
    strContains "a<task_summary>b" closingMarker = false ∧
      onResponse (some "a<task_summary>b") none = some "a<task_summary>b" ∧
      some "a<task_summary>b" ≠ (none : Option String) :=
  ⟨by decide, rfl, by decide⟩

/-- Claim C3 (amended): the completion trigger is substring containment of
the literal opening marker alone; a final textual message containing
`<task_summary>` sets the summary to the full message text, any other
message (including one with no closing form checked) leaves it unchanged,
and a step with no final textual message leaves it unchanged. -/
theorem onResponse_opening_marker_only (t : String) (st : Option String) :
    (strContains t marker = true → onResponse (some t) st = some t) ∧
      (strContains t marker = false → onResponse (some t) st = st) ∧
      onResponse none st = st := by
  refine ⟨?_, ?_, rfl⟩
  · intro h
    simp [onResponse, strContains_marker_ne_empty t h, h]
  · intro h
    by_cases h1 : t = ""
    · simp [onResponse, h1]
    · simp [onResponse, h1, h]

theorem onResponse_opening_marker_only_witness :
    onResponse (some "x<task_summary>") none = some "x<task_summary>" ∧
      onResponse (some "plain text") (some "s") = some "s" :=
  ⟨(onResponse_opening_marker_only "x<task_summary>" none).1 (by decide),
   (onResponse_opening_marker_only "plain text" (some "s")).2.1 (by decide)⟩

/-- Claim C4: once the summary is set to some `s` at any point of a run it
keeps exactly that value at every later point (so it transitions from
unset to set at most once and is never cleared), the iteration count never
advances past that point (no further Agent Steps), and the router answers
stop on the set summary. -/
theorem summary_monotone_router_stops (maxIter : Nat) (eff : Nat → StepEff)
    (n m : Nat) (s : String) (hnm : n ≤ m)
    (hs : (loopAt maxIter eff n).st.summary = some s) :
    (loopAt maxIter eff m).st.summary = some s ∧
      (loopAt maxIter eff m).iter = (loopAt maxIter eff n).iter ∧
      router (loopAt maxIter eff n).st.summary = .stop := by
  have hm : strContains s marker = true := by
    rcases loop_summary_inv maxIter eff n with h | ⟨t, ht, hmt⟩
    · rw [hs] at h; exact Option.noConfusion h
    · rw [hs] at ht
      rw [Option.some.inj ht]
      exact hmt
  have key : ∀ k, (loopAt maxIter eff (n + k)).st = (loopAt maxIter eff n).st ∧
      (loopAt maxIter eff (n + k)).iter = (loopAt maxIter eff n).iter := by
    intro k
    induction k with
    | zero => exact ⟨rfl, rfl⟩
    | succ k ih =>
      have hsk : (loopAt maxIter eff (n + k)).st.summary = some s := by
        rw [ih.1, hs]
      have hstep := loopStep_frozen maxIter eff (loopAt maxIter eff (n + k)) s hsk hm
      constructor
      · show (loopStep maxIter eff (loopAt maxIter eff (n + k))).st = _
        rw [hstep.1, ih.1]
      · show (loopStep maxIter eff (loopAt maxIter eff (n + k))).iter = _
        rw [hstep.2, ih.2]
  have hmn : m = n + (m - n) := by omega
  rw [hmn]
  refine ⟨?_, (key (m - n)).2, ?_⟩
  · rw [(key (m - n)).1, hs]
  · simp [router, hs, truthy_some_of_marker s hm]

def markerEff : Nat → StepEff := fun _ => ⟨id, some "<task_summary> done"⟩

theorem summary_monotone_router_stops_witness :
    (loopAt 15 markerEff 5).st.summary = some "<task_summary> done" ∧
      (loopAt 15 markerEff 5).iter = (loopAt 15 markerEff 1).iter ∧
      router (loopAt 15 markerEff 1).st.summary = .stop :=
  summary_monotone_router_stops 15 markerEff 1 5 "<task_summary> done"
    (by omega) rfl

/-- Claim C5: the iteration count never decreases from one loop transition
to the next and never exceeds the configured cap of 15; a run whose agent
never emits the marker reaches the cap and goes to DONE with the summary
still unset. -/
theorem iteration_cap :
    (∀ (eff : Nat → StepEff) (n : Nat),
        (loopAt 15 eff n).iter ≤ (loopAt 15 eff (n + 1)).iter) ∧
    (∀ (eff : Nat → StepEff) (n : Nat), (loopAt 15 eff n).iter ≤ 15) ∧
    (∀ eff : Nat → StepEff,
        (∀ i t, (eff i).msg = some t → strContains t marker = false) →
        (runNetwork 15 eff).done = true ∧ (runNetwork 15 eff).st.summary = none ∧
          (runNetwork 15 eff).iter ≤ 15) := by
  refine ⟨?_, fun eff n => loopAt_iter_le 15 eff n, ?_⟩
  · intro eff n
    have hstep : loopAt 15 eff (n + 1) = loopStep 15 eff (loopAt 15 eff n) := rfl
    rw [hstep]
    rcases loopStep_iter 15 eff (loopAt 15 eff n) with h | ⟨h, _, _⟩ <;> omega
  · intro eff hm
    exact ⟨runNetwork_done 15 eff, loopAt_summary_none 15 eff hm (15 + 1),
      loopAt_iter_le 15 eff (15 + 1)⟩

theorem iteration_cap_witness :
    (runNetwork 15 constEff).done = true ∧ (runNetwork 15 constEff).st.summary = none ∧
      (runNetwork 15 constEff).iter ≤ 15 :=
  iteration_cap.2.2 constEff (fun _ _ h => nomatch h)

def allOk : Nat → Except String Unit := fun _ => .ok ()

/-- Claim C6 counterexample: a fully successful batch whose single entry
is a file literally named `error` (with non-empty content) is mistaken for
a failure by the merge guard when `AgentState.files` was still undefined,
so the state afterwards does NOT contain the written pair even though
every sandbox write succeeded. -/
theorem couf_error_key_cex :
    (createOrUpdateFiles none [("error", "x")] allOk).newState = none ∧
      (createOrUpdateFiles none [("error", "x")] allOk).result = .ok [("error", "x")] :=
  ⟨rfl, rfl⟩

/-- Claim C6 (amended): for a call in which every sandbox write succeeds —
provided that, when `AgentState.files` was still undefined, the resulting
object does not carry a truthy `error` key (a file literally named
`error` with non-empty content) — afterwards the files state is the old
map with every batch entry assigned in order: each path of the batch maps
to its last written content, paths not in the batch keep their previous
values, and no key is ever deleted. -/
theorem couf_success_merges (stFiles : Option FileMap) (batch : FileMap)
    (wr : Nat → Except String Unit)
    (hok : ∀ j, j < batch.length → wr j = .ok ())
    (hguard : stFiles = none →
      truthy (jsLookup (batchApply [] batch) "error") = false) :
    (createOrUpdateFiles stFiles batch wr).newState
        = some (batchApply (stFiles.getD []) batch) ∧
      (createOrUpdateFiles stFiles batch wr).result
        = .ok (batchApply (stFiles.getD []) batch) ∧
      (∀ p c, lastVal batch p = some c →
        jsLookup (batchApply (stFiles.getD []) batch) p = some c) ∧
      (∀ p, lastVal batch p = none →
        jsLookup (batchApply (stFiles.getD []) batch) p
          = jsLookup (stFiles.getD []) p) ∧
      (∀ p, (jsLookup (stFiles.getD []) p).isSome = true →
        (jsLookup (batchApply (stFiles.getD []) batch) p).isSome = true) := by
  have hw0 : ∀ acc : FileMap, writeAll wr 0 acc batch = (batchApply acc batch, none) :=
    fun acc => writeAll_ok wr batch 0 acc (by intro j hj; simpa using hok j hj)
  have hmain : (createOrUpdateFiles stFiles batch wr).newState
      = some (batchApply (stFiles.getD []) batch) ∧
      (createOrUpdateFiles stFiles batch wr).result
      = .ok (batchApply (stFiles.getD []) batch) := by
    cases stFiles with
    | some m => simp [createOrUpdateFiles, hw0 m]
    | none =>
      have hg := hguard rfl
      simp [createOrUpdateFiles, hw0 [], hg]
  refine ⟨hmain.1, hmain.2, ?_, ?_, ?_⟩
  · intro p c h
    rw [jsLookup_batchApply, h]
    rfl
  · intro p h
    rw [jsLookup_batchApply, h]
    rfl
  · intro p h
    rw [jsLookup_batchApply]
    cases hl : lastVal batch p <;> simp [optOr, h]

theorem couf_success_merges_witness :
    (createOrUpdateFiles (some [("a", "0"), ("keep", "k")])
        [("a", "1"), ("b", "2")] allOk).newState
      = some [("a", "1"), ("keep", "k"), ("b", "2")] := by
  have h := couf_success_merges (some [("a", "0"), ("keep", "k")])
    [("a", "1"), ("b", "2")] allOk (fun j _ => rfl) (fun h => nomatch h)
  exact h.1

-- ## Claim C7: readFiles lemmas

theorem jsLookup_foldl_objSet_not_mem (f : String → String) (paths : List String)
    (m : FileMap) (p : String) (h : ∀ q ∈ paths, q ≠ p) :
    jsLookup (paths.foldl (fun acc q => objSet acc q (f q)) m) p = jsLookup m p := by
  induction paths generalizing m with
  | nil => rfl
  | cons q rest ih =>
    have hq : q ≠ p := h q (by simp)
    have hr : ∀ x ∈ rest, x ≠ p := fun x hx => h x (by simp [hx])
    simp only [List.foldl_cons]
    rw [ih (objSet m q (f q)) hr, jsLookup_objSet_ne m q (f q) p (Ne.symm hq)]

theorem jsLookup_foldl_objSet_mem (f : String → String) (paths : List String)
    (m : FileMap) (p : String) (h : p ∈ paths) :
    jsLookup (paths.foldl (fun acc q => objSet acc q (f q)) m) p = some (f p) := by
  induction paths generalizing m with
  | nil => cases h
  | cons q rest ih =>
    simp only [List.foldl_cons]
    by_cases hr : p ∈ rest
    · exact ih (objSet m q (f q)) hr
    · have hq : q = p := by
        rcases List.mem_cons.mp h with h1 | h1
        · exact h1.symm
        · exact absurd h1 hr
      subst hq
      rw [jsLookup_foldl_objSet_not_mem f rest (objSet m q (f q)) q
        (fun x hx he => hr (he ▸ hx)), jsLookup_objSet_self]

/-- Claim C7: when the sandbox connection succeeds, readFiles returns the
contents object (it is total — nothing is raised), and every requested
path is handled independently: a path whose read succeeds maps to its
real content, a path whose read throws maps to the formatted per-file
error string, and neither outcome prevents the other paths from being
recorded. -/
theorem readFiles_per_path (rd : String → Except String String) (paths : List String)
    (p : String) (hp : p ∈ paths) :
    readFiles (.ok ()) rd paths
        = .contents (paths.foldl (fun m q => objSet m q (valOfRead rd q)) []) ∧
      jsLookup (paths.foldl (fun m q => objSet m q (valOfRead rd q)) []) p
        = some (valOfRead rd p) ∧
      (∀ c, rd p = .ok c →
        jsLookup (paths.foldl (fun m q => objSet m q (valOfRead rd q)) []) p
          = some c) ∧
      (∀ e, rd p = .error e →
        jsLookup (paths.foldl (fun m q => objSet m q (valOfRead rd q)) []) p
          = some ("Error reading file: " ++ e)) := by
  have hmain := jsLookup_foldl_objSet_mem (valOfRead rd) paths [] p hp
  refine ⟨rfl, hmain, ?_, ?_⟩
  · intro c hc
    rw [hmain]
    simp [valOfRead, hc]
  · intro e he
    rw [hmain]
    simp [valOfRead, he]

def rdW : String → Except String String :=
  fun p => if p = "x" then .ok "xcontent" else .error "ENOENT"

theorem readFiles_per_path_witness :
    jsLookup (["x", "y"].foldl (fun m q => objSet m q (valOfRead rdW q)) []) "x"
        = some "xcontent" ∧
      jsLookup (["x", "y"].foldl (fun m q => objSet m q (valOfRead rdW q)) []) "y"
        = some ("Error reading file: " ++ "ENOENT") :=
  ⟨(readFiles_per_path rdW ["x", "y"] "x" (by decide)).2.2.1 "xcontent" rfl,
   (readFiles_per_path rdW ["x", "y"] "y" (by decide)).2.2.2 "ENOENT" rfl⟩

/-- Claim C8: on success the terminal handler returns the command's
captured stdout, falling back to the accumulated stdout buffer when the
captured stdout is empty (JS falsiness); on failure it returns exactly the
formatted string combining the exception with both accumulated buffers.
The handler is a total function: nothing is raised past its boundary. -/
theorem terminal_output (r buf e so se : String) :
    (r ≠ "" → terminal (.ok r buf) = r) ∧
      (r = "" → terminal (.ok r buf) = buf) ∧
      terminal (.err e so se)
        = "Command failed: " ++ e ++ "\nstdout: " ++ so ++ "\nstderr: " ++ se := by
  refine ⟨?_, ?_, rfl⟩
  · intro h
    simp [terminal, jsOrStr, h]
  · intro h
    simp [terminal, jsOrStr, h]

theorem terminal_output_witness :
    terminal (.ok "out" "buffered") = "out" ∧
      terminal (.ok "" "buffered") = "buffered" :=
  ⟨(terminal_output "out" "buffered" "" "" "").1 (by decide),
   (terminal_output "" "buffered" "" "" "").2.1 rfl⟩

/-- Claim C9: on a successful run (the error classification is false),
when host resolution throws, the get-sandbox-url step degrades to null and
both the persisted fragment and the function's return value carry the
sentinel "URL unavailable" — the run completes instead of propagating the
failure. -/
theorem sandbox_url_fallback (s : Option String) (f : Option FileMap) (e : String)
    (h : isError s f = false) :
    saveResult s f (getSandboxUrl (.error e))
        = .resultMsg (s.getD "") "URL unavailable" "Fragment" (f.getD []) ∧
      (codeAgentReturn s f (getSandboxUrl (.error e))).url = "URL unavailable" := by
  constructor
  · simp [saveResult, h, getSandboxUrl, jsOrStrOpt]
  · simp [codeAgentReturn, getSandboxUrl, jsOrStrOpt]

theorem sandbox_url_fallback_witness :
    saveResult (some "<task_summary> ok") (some [("a", "1")])
        (getSandboxUrl (.error "boom"))
      = .resultMsg "<task_summary> ok" "URL unavailable" "Fragment" [("a", "1")] ∧
      (codeAgentReturn (some "<task_summary> ok") (some [("a", "1")])
          (getSandboxUrl (.error "boom"))).url = "URL unavailable" :=
  sandbox_url_fallback (some "<task_summary> ok") (some [("a", "1")]) "boom" (by decide)

/-- Claim C10: at every reachable point of every run, the summary is
either still unset or a string containing the literal opening marker
(hence non-empty), so the router's JS truthiness test on the summary
coincides with the test that the summary has ever been set. -/
theorem summary_marker_invariant (maxIter : Nat) (eff : Nat → StepEff) (n : Nat) :
    ((loopAt maxIter eff n).st.summary = none ∨
      ∃ t, (loopAt maxIter eff n).st.summary = some t ∧
        strContains t marker = true) ∧
      truthy (loopAt maxIter eff n).st.summary
        = (loopAt maxIter eff n).st.summary.isSome := by
  refine ⟨loop_summary_inv maxIter eff n, ?_⟩
  rcases loop_summary_inv maxIter eff n with h | ⟨t, ht, hm⟩
  · rw [h]; rfl
  · rw [ht]
    simp [truthy_some_of_marker t hm]
